import Mathlib

/-!
# hackers-auth: the credential matcher, the login handler and the user listing

A shallow embedding of `main.go`. The store, `findUser`, `login` and `listUsers`
are translated from the source. The collaborators the handlers call into are kept
at their interface:

* the JSON layer: a value is serialised field by field following its struct tags
  (`json:"-"` drops the field), a `gin.H` is an object;
* request binding: the decoder either fails or fills a `LoginRequest`, a key the
  body does not carry leaving the field at its zero value `""`; the
  `binding:"required"` tags then reject a field that is still the zero value;
* the request body: the decoder reads one JSON value from the start of the body
  and does not look at the text after it, so a body is given as the value its
  text begins with, if there is one, and the text that follows that value;
* the clock: an instant is a count of nanoseconds since the epoch;
* the signer: `SignedString` is a parameter of `login`.

Go compares strings byte by byte; on the well-formed text a `String` holds this is
equality of the strings.
-/

namespace HackersAuth

/-! ## JSON values and responses -/

/-- A JSON value as the handlers write it. -/
inductive JSON where
  | null : JSON
  | bool : Bool → JSON
  | num : Int → JSON
  | str : String → JSON
  | arr : List JSON → JSON
  | obj : List (String × JSON) → JSON

/-- The value an association list of members holds under a key. -/
def lookupKey : List (String × JSON) → String → Option JSON
  | [], _ => none
  | (k, v) :: rest, key => if k = key then some v else lookupKey rest key

/-- The member of an object under a key; nothing for a value that is no object. -/
def JSON.get? : JSON → String → Option JSON
  | JSON.obj members, key => lookupKey members key
  | _, _ => none

/-- The keys of an object, in order. -/
def JSON.keys : JSON → List String
  | JSON.obj members => members.map Prod.fst
  | _ => []

/-- The elements of an array, in order. -/
def JSON.elems : JSON → List JSON
  | JSON.arr items => items
  | _ => []

/-- What a handler leaves behind through `c.JSON(code, value)`. -/
structure Response where
  status : Nat
  body : JSON

def StatusOK : Nat := 200
def StatusBadRequest : Nat := 400
def StatusUnauthorized : Nat := 401
def StatusInternalServerError : Nat := 500

/-- The body `gin.H{"error": msg}`. -/
def errorBody (msg : String) : JSON :=
  JSON.obj [("error", JSON.str msg)]

/-! ## The data model -/

/-- The `User` struct. -/
structure User where
  Username : String
  Password : String
  Company : String
  BetaAccess : Bool
  deriving DecidableEq, Repr

/-- The `LoginRequest` struct. -/
structure LoginRequest where
  Username : String
  Password : String
  deriving DecidableEq, Repr

/-- The `LoginResponse` struct. -/
structure LoginResponse where
  Token : String
  User : User

/-- The `UserCredentials` struct. -/
structure UserCredentials where
  Username : String
  Password : String
  deriving DecidableEq, Repr

instance : Inhabited UserCredentials := ⟨⟨"", ""⟩⟩

/-- Serialisation of a `User` by its tags: `Password` carries `json:"-"`. -/
def User.toJSON (u : User) : JSON :=
  JSON.obj [("username", JSON.str u.Username),
            ("company", JSON.str u.Company),
            ("beta_access", JSON.bool u.BetaAccess)]

/-- Serialisation of a `LoginResponse` by its tags. -/
def LoginResponse.toJSON (r : LoginResponse) : JSON :=
  JSON.obj [("token", JSON.str r.Token), ("user", r.User.toJSON)]

/-- Serialisation of a `UserCredentials` by its tags. -/
def UserCredentials.toJSON (c : UserCredentials) : JSON :=
  JSON.obj [("username", JSON.str c.Username), ("password", JSON.str c.Password)]

/-- A string member of an object, the zero value when absent or no string. -/
def stringField (j : JSON) (key : String) : String :=
  match j.get? key with
  | some (JSON.str s) => s
  | _ => ""

/-- A boolean member of an object, the zero value when absent or no boolean. -/
def boolField (j : JSON) (key : String) : Bool :=
  match j.get? key with
  | some (JSON.bool b) => b
  | _ => false

/-- Reading a `User` back by its tags, as the tests do: no key feeds `Password`,
which stays at its zero value. -/
def User.ofJSON (j : JSON) : User :=
  { Username := stringField j "username"
    Password := ""
    Company := stringField j "company"
    BetaAccess := boolField j "beta_access" }

/-! ## The credential store and the matcher -/

/-- The hardcoded user list. -/
def users : List User :=
  [ { Username := "betauser", Password := "betauser",
      Company := "acme global", BetaAccess := true },
    { Username := "normaluser", Password := "normaluser",
      Company := "generic co", BetaAccess := false } ]

/-- The signing secret, the bytes of this literal. -/
def jwtSecret : String := "super-secure-password"

/-- The loop of `findUser` over a store: the first record passing the test of the
`if` is returned (a copy of it), `nil` when the range is exhausted. -/
def findUserIn : List User → String → String → Option User
  | [], _, _ => none
  | user :: rest, username, password =>
    if user.Username = username ∧ user.Password = password then some user
    else findUserIn rest username password

/-- The function `findUser`, over the package-level `users`. -/
def findUser (username password : String) : Option User :=
  findUserIn users username password

/-- The call `findUser` with the store as explicit state: the store is read, the
result is computed from what was read, and nothing is written. -/
def findUserM (username password : String) : StateM (List User) (Option User) := do
  let store ← get
  return findUserIn store username password

/-! ## Time and tokens -/

/-- An instant: nanoseconds since the Unix epoch. -/
abbrev Time := Int

/-- A duration: a count of nanoseconds. -/
abbrev Duration := Int

def Second : Duration := 1000000000
def Minute : Duration := 60 * Second
def Hour : Duration := 60 * Minute

/-- The instant a duration later. -/
def Time.Add (t : Time) (d : Duration) : Time := t + d

/-- Whole seconds since the epoch, rounding towards minus infinity. -/
def Time.Unix (t : Time) : Int := t / 1000000000

/-- Signing methods of the token library. -/
inductive SigningMethod where
  | HS256 | HS384 | HS512 | RS256 | ES256
  deriving DecidableEq, Repr

/-- A claim value. -/
inductive ClaimValue where
  | str : String → ClaimValue
  | bool : Bool → ClaimValue
  | int : Int → ClaimValue
  deriving DecidableEq, Repr

/-- The map literal of claims, entry by entry as written. -/
abbrev MapClaims := List (String × ClaimValue)

/-- An unsigned token: what `jwt.NewWithClaims` builds. -/
structure Token where
  Method : SigningMethod
  Claims : MapClaims
  deriving DecidableEq, Repr

def NewWithClaims (method : SigningMethod) (claims : MapClaims) : Token :=
  { Method := method, Claims := claims }

/-- The value of a claim. -/
def claim? (claims : MapClaims) (key : String) : Option ClaimValue :=
  (claims.find? (fun e => e.1 == key)).map Prod.snd

/-- The signing primitive: a token and a key give a token string or an error. -/
abbrev Signer := Token → String → Except String String

/-! ## The handlers -/

/-- Binding of the request body: `decoded` is what the JSON decoder produced
(`none` when it reported an error), and the `required` tag of each field of
`LoginRequest` rejects the zero value. -/
def ShouldBindJSON (decoded : Option LoginRequest) : Except String LoginRequest :=
  match decoded with
  | none => Except.error "invalid JSON"
  | some loginReq =>
    if loginReq.Username = "" then Except.error "Username is required"
    else if loginReq.Password = "" then Except.error "Password is required"
    else Except.ok loginReq

/-- The token `login` creates for a matched user at the instant `now`: the
`jwt.NewWithClaims` call of the handler. -/
def loginToken (user : User) (now : Time) : Token :=
  NewWithClaims SigningMethod.HS256
    [ ("username", ClaimValue.str user.Username),
      ("company", ClaimValue.str user.Company),
      ("beta_access", ClaimValue.bool user.BetaAccess),
      ("exp", ClaimValue.int (Time.Unix (Time.Add now (Hour * 24)))) ]

/-- The handler `login`: `now` is what `time.Now()` reads, `decoded` what the
decoder made of the body. -/
def login (SignedString : Signer) (now : Time) (decoded : Option LoginRequest) : Response :=
  match ShouldBindJSON decoded with
  | Except.error _ => ⟨StatusBadRequest, errorBody "Invalid request"⟩
  | Except.ok loginReq =>
    match findUser loginReq.Username loginReq.Password with
    | none => ⟨StatusUnauthorized, errorBody "Invalid credentials"⟩
    | some user =>
      match SignedString (loginToken user now) jwtSecret with
      | Except.error _ => ⟨StatusInternalServerError, errorBody "Could not generate token"⟩
      | Except.ok tokenString =>
        ⟨StatusOK, LoginResponse.toJSON { Token := tokenString, User := user }⟩

/-! ## The request body -/

/-- A request body as the decoder meets it: the JSON value the text begins with
(`none` when the text is empty or does not begin with a JSON value) and the text
after that value. -/
structure Body where
  value : Option JSON
  trailing : String

/-- JSON white space: blank, tab, line feed, carriage return. -/
def isSpace (c : Char) : Bool :=
  c.toNat = 32 || c.toNat = 9 || c.toNat = 10 || c.toNat = 13

/-- A body is malformed when its text is not one JSON value with at most white
space after it. -/
def Body.malformed (body : Body) : Bool :=
  body.value.isNone || body.trailing.toList.any (fun c => !isSpace c)

/-- Case folding of a code point as the decoder compares member names: a lower
case letter goes to its capital, and so do the two other code points that fold
to a letter, the long s and the Kelvin sign. -/
def foldRune (c : Char) : Nat :=
  if 97 ≤ c.toNat ∧ c.toNat ≤ 122 then c.toNat - 32
  else if c.toNat = 383 then 83
  else if c.toNat = 8490 then 75
  else c.toNat

/-- A member name stands for the field tagged `name` when the two are equal up to
case folding. -/
def keyIs (key name : String) : Bool :=
  key.toList.map foldRune == name.toList.map foldRune

/-- The decoder over the members of an object, in order: a member named after a
field sets it when its value is a string, leaves it when its value is `null`, and
is a type error otherwise; a member named after no field is skipped. -/
def decodeMembers : List (String × JSON) → LoginRequest → Option LoginRequest
  | [], acc => some acc
  | (key, v) :: rest, acc =>
    if keyIs key "username" then
      match v with
      | JSON.str s => decodeMembers rest { acc with Username := s }
      | JSON.null => decodeMembers rest acc
      | _ => none
    else if keyIs key "password" then
      match v with
      | JSON.str s => decodeMembers rest { acc with Password := s }
      | JSON.null => decodeMembers rest acc
      | _ => none
    else decodeMembers rest acc

/-- The decoder on a JSON value, into a `LoginRequest` that starts at its zero
value: an object is read member by member, `null` leaves the struct as it is, and
any other value is a type error. -/
def decodeLoginRequest : JSON → Option LoginRequest
  | JSON.obj members => decodeMembers members { Username := "", Password := "" }
  | JSON.null => some { Username := "", Password := "" }
  | _ => none

/-- The decoder on a body: the leading value is decoded, the text after it is
not read; `none` when the decoder reports an error. -/
def decodeJSON (body : Body) : Option LoginRequest :=
  match body.value with
  | none => none
  | some v => decodeLoginRequest v

/-- The handler `login` on a request body. -/
def loginBody (SignedString : Signer) (now : Time) (body : Body) : Response :=
  login SignedString now (decodeJSON body)

/-- The loop of `listUsers`: entry `i` of the slice is overwritten with the
credentials of the `i`-th record. -/
def fillCredentials : List User → Nat → List UserCredentials → List UserCredentials
  | [], _, credentials => credentials
  | user :: rest, i, credentials =>
    fillCredentials rest (i + 1)
      (credentials.set i { Username := user.Username, Password := user.Password })

/-- The slice `listUsers` builds over a store: `make` gives `len` zero entries,
the loop fills them. -/
def credentialsOf (store : List User) : List UserCredentials :=
  fillCredentials store 0 (List.replicate store.length default)

/-- The handler `listUsers`. -/
def listUsers : Response :=
  ⟨StatusOK, JSON.arr ((credentialsOf users).map UserCredentials.toJSON)⟩

/-! ## The matcher: first match in store order -/

theorem findUserIn_eq_none_iff (store : List User) (username password : String) :
    findUserIn store username password = none ↔
      ∀ x ∈ store, ¬(x.Username = username ∧ x.Password = password) := by
  induction store with
  | nil => simp [findUserIn]
  | cons user rest ih =>
    unfold findUserIn
    by_cases h : user.Username = username ∧ user.Password = password
    · rw [if_pos h]
      simp only [List.mem_cons, forall_eq_or_imp]
      constructor
      · intro hc
        cases hc
      · intro hc
        exact absurd h hc.1
    · rw [if_neg h, ih]
      simp only [List.mem_cons, forall_eq_or_imp]
      exact ⟨fun hr => ⟨h, hr⟩, fun hr => hr.2⟩

theorem findUserIn_eq_some_iff (store : List User) (username password : String) (r : User) :
    findUserIn store username password = some r ↔
      ∃ pre post, store = pre ++ r :: post ∧ r.Username = username ∧ r.Password = password ∧
        ∀ x ∈ pre, ¬(x.Username = username ∧ x.Password = password) := by
  induction store with
  | nil => simp [findUserIn]
  | cons user rest ih =>
    unfold findUserIn
    by_cases h : user.Username = username ∧ user.Password = password
    · rw [if_pos h]
      constructor
      · intro hr
        cases hr
        exact ⟨[], rest, rfl, h.1, h.2, by simp⟩
      · rintro ⟨pre, post, hst, _, _, hpre⟩
        cases pre with
        | nil =>
          simp only [List.nil_append, List.cons.injEq] at hst
          rw [hst.1]
        | cons y ys =>
          simp only [List.cons_append, List.cons.injEq] at hst
          exact absurd h (hst.1 ▸ hpre y (List.mem_cons_self _ _))
    · rw [if_neg h, ih]
      constructor
      · rintro ⟨pre, post, hst, hu, hp, hpre⟩
        refine ⟨user :: pre, post, by rw [hst]; rfl, hu, hp, ?_⟩
        intro x hx
        rcases List.mem_cons.1 hx with hx | hx
        · rw [hx]; exact h
        · exact hpre x hx
      · rintro ⟨pre, post, hst, hu, hp, hpre⟩
        cases pre with
        | nil =>
          simp only [List.nil_append, List.cons.injEq] at hst
          exact absurd ⟨hu, hp⟩ (hst.1 ▸ h)
        | cons y ys =>
          simp only [List.cons_append, List.cons.injEq] at hst
          exact ⟨ys, post, hst.2, hu, hp, fun x hx => hpre x (List.mem_cons_of_mem _ hx)⟩

/-- C9: over an arbitrary store, `findUser` returns a record exactly when the store
splits as `pre ++ r :: post` with `r` matching both arguments and no record of
`pre` matching both (the first match in list order); it returns absence exactly
when no record matches both; comparison is exact, so a username differing in case
or by a trailing blank is absent on the fixed store; and the store after the call
is the store before it. -/
theorem findUserIn_first_match (store : List User) (username password : String) :
    (∀ r, findUserIn store username password = some r ↔
      ∃ pre post, store = pre ++ r :: post ∧ r.Username = username ∧ r.Password = password ∧
        ∀ x ∈ pre, ¬(x.Username = username ∧ x.Password = password)) ∧
    (findUserIn store username password = none ↔
      ∀ x ∈ store, ¬(x.Username = username ∧ x.Password = password)) ∧
    findUser "BetaUser" "betauser" = none ∧
    findUser "betauser " "betauser" = none ∧
    (findUserM username password).run store
      = (findUserIn store username password, store) :=
  ⟨findUserIn_eq_some_iff store username password,
   findUserIn_eq_none_iff store username password,
   by decide, by decide, rfl⟩

/-- C1: over the fixed store, a pair carried by some record makes `findUser` return
that record, equal in all four fields, and every other pair gives absence; with the
four cases of the test table. -/
theorem findUser_fixed_store (username password : String) :
    (∀ u ∈ users, u.Username = username → u.Password = password →
      findUser username password = some u) ∧
    ((¬∃ u ∈ users, u.Username = username ∧ u.Password = password) →
      findUser username password = none) ∧
    findUser "betauser" "betauser"
      = some { Username := "betauser", Password := "betauser",
               Company := "acme global", BetaAccess := true } ∧
    findUser "normaluser" "normaluser"
      = some { Username := "normaluser", Password := "normaluser",
               Company := "generic co", BetaAccess := false } ∧
    findUser "nonexistent" "betauser" = none ∧
    findUser "betauser" "wrongpass" = none := by
  refine ⟨?_, ?_, by decide, by decide, by decide, by decide⟩
  · intro u hu hn hp
    simp only [users, List.mem_cons, List.mem_singleton, List.not_mem_nil, or_false] at hu
    rcases hu with rfl | rfl
    · subst hn hp
      decide
    · subst hn hp
      decide
  · intro hno
    unfold findUser
    rw [findUserIn_eq_none_iff]
    intro x hx hm
    exact hno ⟨x, hx, hm⟩

/-! ## The listing: the loop fills the slice with the projection of the store -/

theorem take_set_same {α : Type} (l : List α) (i : Nat) (a : α) :
    (l.set i a).take i = l.take i := by
  induction l generalizing i with
  | nil => simp
  | cons x xs ih =>
    cases i with
    | zero => simp
    | succ n => simp [ih]

theorem fillCredentials_eq (store : List User) (i : Nat) (credentials : List UserCredentials)
    (hlen : credentials.length = i + store.length) :
    fillCredentials store i credentials
      = credentials.take i
          ++ store.map (fun u => { Username := u.Username, Password := u.Password }) := by
  induction store generalizing i credentials with
  | nil =>
    have hle : credentials.length ≤ i := by simp at hlen; omega
    simp [fillCredentials, List.take_of_length_le hle]
  | cons user rest ih =>
    have hi : i < credentials.length := by simp at hlen; omega
    unfold fillCredentials
    rw [ih (i + 1) _ (by simp at hlen ⊢; omega), List.take_succ, take_set_same]
    simp [hi]

theorem credentialsOf_eq_map (store : List User) :
    credentialsOf store
      = store.map (fun u => { Username := u.Username, Password := u.Password }) := by
  unfold credentialsOf
  rw [fillCredentials_eq store 0 _ (by simp)]
  simp

theorem listUsers_body_eq :
    listUsers.body
      = JSON.arr
          [ JSON.obj [("username", JSON.str "betauser"), ("password", JSON.str "betauser")],
            JSON.obj [("username", JSON.str "normaluser"),
                      ("password", JSON.str "normaluser")] ] := by
  unfold listUsers
  rw [credentialsOf_eq_map]
  rfl

/-- C6: `listUsers` answers 200; over any store the slice it serialises has the
length of the store and its `i`-th entry is the username and password of the
`i`-th record, in store order; for the fixed store the body is the two entries
betauser/betauser and normaluser/normaluser; and an entry has the keys `username`
and `password` only, so no company or beta_access. -/
theorem listUsers_projects_store (store : List User) :
    listUsers.status = 200 ∧
    (credentialsOf store).length = store.length ∧
    (∀ i : Nat, (credentialsOf store)[i]?
      = (store[i]?).map (fun u => { Username := u.Username, Password := u.Password })) ∧
    listUsers.body
      = JSON.arr
          [ JSON.obj [("username", JSON.str "betauser"), ("password", JSON.str "betauser")],
            JSON.obj [("username", JSON.str "normaluser"),
                      ("password", JSON.str "normaluser")] ] ∧
    (∀ c : UserCredentials,
      (UserCredentials.toJSON c).keys = ["username", "password"] ∧
      (UserCredentials.toJSON c).get? "company" = none ∧
      (UserCredentials.toJSON c).get? "beta_access" = none) := by
  refine ⟨rfl, ?_, ?_, ?_, ?_⟩
  · rw [credentialsOf_eq_map, List.length_map]
  · intro i
    rw [credentialsOf_eq_map, List.getElem?_map]
  · exact listUsers_body_eq
  · intro c
    refine ⟨rfl, ?_, ?_⟩
    · simp [UserCredentials.toJSON, JSON.get?, lookupKey]
    · simp [UserCredentials.toJSON, JSON.get?, lookupKey]

/-! ## The login handler -/

theorem ShouldBindJSON_ok (req : LoginRequest) (hu : req.Username ≠ "")
    (hp : req.Password ≠ "") : ShouldBindJSON (some req) = Except.ok req := by
  simp [ShouldBindJSON, hu, hp]

theorem ShouldBindJSON_ok_iff (decoded : Option LoginRequest) (req : LoginRequest) :
    ShouldBindJSON decoded = Except.ok req ↔
      decoded = some req ∧ req.Username ≠ "" ∧ req.Password ≠ "" := by
  cases decoded with
  | none => simp [ShouldBindJSON]
  | some r =>
    unfold ShouldBindJSON
    by_cases hu : r.Username = ""
    · simp only [hu, if_true]
      constructor
      · intro h; cases h
      · rintro ⟨h, hn, _⟩
        cases h
        exact absurd hu hn
    · by_cases hp : r.Password = ""
      · simp only [hu, hp, if_true, if_false]
        constructor
        · intro h; cases h
        · rintro ⟨h, _, hn⟩
          cases h
          exact absurd hp hn
      · simp only [hu, hp, if_false]
        constructor
        · intro h
          cases h
          exact ⟨rfl, hu, hp⟩
        · rintro ⟨h, _, _⟩
          cases h
          rfl

theorem expiry_eq (now : Time) :
    Time.Unix (Time.Add now (Hour * 24)) = Time.Unix now + 86400 := by
  have h : Hour * 24 = 86400 * 1000000000 := by decide
  unfold Time.Unix Time.Add
  rw [h]
  exact Int.add_mul_ediv_right now 86400 (by decide)

theorem loginToken_eq (user : User) (now : Time) :
    loginToken user now
      = { Method := SigningMethod.HS256,
          Claims := [ ("username", ClaimValue.str user.Username),
                      ("company", ClaimValue.str user.Company),
                      ("beta_access", ClaimValue.bool user.BetaAccess),
                      ("exp", ClaimValue.int (Time.Unix now + 86400)) ] } := by
  unfold loginToken NewWithClaims
  rw [expiry_eq]

theorem login_matched (SignedString : Signer) (now : Time) (req : LoginRequest) (u : User)
    (hu : req.Username ≠ "") (hp : req.Password ≠ "")
    (hf : findUser req.Username req.Password = some u) :
    login SignedString now (some req)
      = match SignedString (loginToken u now) jwtSecret with
        | Except.error _ =>
          ⟨StatusInternalServerError, errorBody "Could not generate token"⟩
        | Except.ok tokenString =>
          ⟨StatusOK, LoginResponse.toJSON { Token := tokenString, User := u }⟩ := by
  unfold login
  rw [ShouldBindJSON_ok req hu hp]
  simp only [hf]

theorem login_status_cases (SignedString : Signer) (now : Time)
    (decoded : Option LoginRequest) :
    (login SignedString now decoded).status = 500 →
      ∃ req u e, decoded = some req ∧ req.Username ≠ "" ∧ req.Password ≠ "" ∧
        findUser req.Username req.Password = some u ∧
        SignedString (loginToken u now) jwtSecret = Except.error e := by
  intro h
  unfold login at h
  cases hb : ShouldBindJSON decoded with
  | error e =>
    rw [hb] at h
    simp [StatusBadRequest] at h
  | ok req =>
    rw [hb] at h
    obtain ⟨hd, hu, hp⟩ := (ShouldBindJSON_ok_iff decoded req).1 hb
    cases hf : findUser req.Username req.Password with
    | none =>
      simp [hf, StatusUnauthorized] at h
    | some u =>
      cases hs : SignedString (loginToken u now) jwtSecret with
      | error e => exact ⟨req, u, e, hd, hu, hp, hf, hs⟩
      | ok tok =>
        simp [hf, hs, StatusOK] at h

/-- C2: a well-formed request matching a record `u`, with signing succeeding,
is answered 200 with a body of two members, the token and a user object carrying
exactly `u`'s username, company and beta_access; the user object has no password
key, so read back it gives the record with an empty password. -/
theorem login_success (SignedString : Signer) (now : Time) (req : LoginRequest) (u : User)
    (tokenString : String)
    (hu : req.Username ≠ "") (hp : req.Password ≠ "")
    (hf : findUser req.Username req.Password = some u)
    (hs : SignedString (loginToken u now) jwtSecret = Except.ok tokenString) :
    (login SignedString now (some req)).status = 200 ∧
    (login SignedString now (some req)).body
      = JSON.obj
          [ ("token", JSON.str tokenString),
            ("user", JSON.obj [ ("username", JSON.str u.Username),
                                ("company", JSON.str u.Company),
                                ("beta_access", JSON.bool u.BetaAccess) ]) ] ∧
    (∀ userObj, (login SignedString now (some req)).body.get? "user" = some userObj →
      userObj.keys = ["username", "company", "beta_access"] ∧
      userObj.get? "password" = none ∧
      User.ofJSON userObj
        = { Username := u.Username, Password := "",
            Company := u.Company, BetaAccess := u.BetaAccess }) := by
  have hl := login_matched SignedString now req u hu hp hf
  rw [hs] at hl
  simp only at hl
  rw [hl]
  refine ⟨rfl, rfl, ?_⟩
  intro userObj hobj
  have hobj' : userObj = User.toJSON u := by
    simp [LoginResponse.toJSON, JSON.get?, lookupKey] at hobj
    exact hobj.symm
  subst hobj'
  refine ⟨rfl, ?_, ?_⟩
  · simp [User.toJSON, JSON.get?, lookupKey]
  · simp [User.ofJSON, User.toJSON, stringField, boolField, JSON.get?, lookupKey]

/-- The requests betauser/betauser at instant 0 under a signer that always
succeeds. -/
theorem login_success_witness :
    findUser "betauser" "betauser"
      = some { Username := "betauser", Password := "betauser",
               Company := "acme global", BetaAccess := true } ∧
    (login (fun _ _ => Except.ok "signed") 0
        (some { Username := "betauser", Password := "betauser" })).body
      = JSON.obj
          [ ("token", JSON.str "signed"),
            ("user", JSON.obj [ ("username", JSON.str "betauser"),
                                ("company", JSON.str "acme global"),
                                ("beta_access", JSON.bool true) ]) ] :=
  ⟨by decide,
   (login_success (fun _ _ => Except.ok "signed") 0
      { Username := "betauser", Password := "betauser" }
      { Username := "betauser", Password := "betauser",
        Company := "acme global", BetaAccess := true }
      "signed" (by decide) (by decide) (by decide) rfl).2.1⟩

/-- C3: for a login matching record `u` at instant `now`, the signer is called on
the HS256 token whose claims are exactly username, company and beta_access of `u`
and exp, the issue time in epoch seconds plus 86400, under the fixed secret, and
the answer is decided by what it returns; the claims hold no password entry. -/
theorem login_claims (SignedString : Signer) (now : Time) (req : LoginRequest) (u : User)
    (hu : req.Username ≠ "") (hp : req.Password ≠ "")
    (hf : findUser req.Username req.Password = some u) :
    login SignedString now (some req)
      = (match SignedString
            { Method := SigningMethod.HS256,
              Claims := [ ("username", ClaimValue.str u.Username),
                          ("company", ClaimValue.str u.Company),
                          ("beta_access", ClaimValue.bool u.BetaAccess),
                          ("exp", ClaimValue.int (Time.Unix now + 86400)) ] }
            "super-secure-password" with
        | Except.error _ =>
          ⟨500, JSON.obj [("error", JSON.str "Could not generate token")]⟩
        | Except.ok tokenString =>
          ⟨200, LoginResponse.toJSON { Token := tokenString, User := u }⟩) ∧
    (loginToken u now).Claims.map Prod.fst = ["username", "company", "beta_access", "exp"] ∧
    claim? (loginToken u now).Claims "password" = none ∧
    claim? (loginToken u now).Claims "exp" = some (ClaimValue.int (Time.Unix now + 86400)) := by
  refine ⟨?_, rfl, ?_, ?_⟩
  · rw [login_matched SignedString now req u hu hp hf, loginToken_eq]
    rfl
  · simp [loginToken, NewWithClaims, claim?, List.find?]
  · rw [loginToken_eq]
    simp [claim?, List.find?]

/-- The logins of betauser and of normaluser at the instant 1700000000.5 s under a
signer that returns the claim it is asked about: beta_access is true for the
first, false for the second, the company of the first is acme global and its
expiry is 1700086400. -/
theorem login_claims_witness :
    (∀ probe : MapClaims → String,
      login (fun t _ => Except.ok (probe t.Claims)) 1700000000500000000
          (some { Username := "betauser", Password := "betauser" })
        = ⟨200, LoginResponse.toJSON
            { Token := probe [ ("username", ClaimValue.str "betauser"),
                               ("company", ClaimValue.str "acme global"),
                               ("beta_access", ClaimValue.bool true),
                               ("exp", ClaimValue.int 1700086400) ],
              User := { Username := "betauser", Password := "betauser",
                        Company := "acme global", BetaAccess := true } }⟩) ∧
    (∀ probe : MapClaims → String,
      login (fun t _ => Except.ok (probe t.Claims)) 1700000000500000000
          (some { Username := "normaluser", Password := "normaluser" })
        = ⟨200, LoginResponse.toJSON
            { Token := probe [ ("username", ClaimValue.str "normaluser"),
                               ("company", ClaimValue.str "generic co"),
                               ("beta_access", ClaimValue.bool false),
                               ("exp", ClaimValue.int 1700086400) ],
              User := { Username := "normaluser", Password := "normaluser",
                        Company := "generic co", BetaAccess := false } }⟩) :=
  ⟨fun probe =>
     (login_claims (fun t _ => Except.ok (probe t.Claims)) 1700000000500000000
        { Username := "betauser", Password := "betauser" }
        { Username := "betauser", Password := "betauser",
          Company := "acme global", BetaAccess := true }
        (by decide) (by decide) (by decide)).1,
   fun probe =>
     (login_claims (fun t _ => Except.ok (probe t.Claims)) 1700000000500000000
        { Username := "normaluser", Password := "normaluser" }
        { Username := "normaluser", Password := "normaluser",
          Company := "generic co", BetaAccess := false }
        (by decide) (by decide) (by decide)).1⟩

/-- C4: a well-formed request matching no record is answered 401 with the body
`error: Invalid credentials`, which holds no token, whatever the signer and the
instant; hence any two such requests get the same response. -/
theorem login_invalid_credentials (SignedString SignedString' : Signer) (now now' : Time)
    (req req' : LoginRequest)
    (hu : req.Username ≠ "") (hp : req.Password ≠ "")
    (hf : findUser req.Username req.Password = none)
    (hu' : req'.Username ≠ "") (hp' : req'.Password ≠ "")
    (hf' : findUser req'.Username req'.Password = none) :
    login SignedString now (some req)
      = ⟨401, JSON.obj [("error", JSON.str "Invalid credentials")]⟩ ∧
    (login SignedString now (some req)).body.get? "token" = none ∧
    login SignedString now (some req) = login SignedString' now' (some req') := by
  have h1 : login SignedString now (some req)
      = ⟨401, JSON.obj [("error", JSON.str "Invalid credentials")]⟩ := by
    unfold login
    rw [ShouldBindJSON_ok req hu hp]
    simp only [hf]
    rfl
  have h2 : login SignedString' now' (some req')
      = ⟨401, JSON.obj [("error", JSON.str "Invalid credentials")]⟩ := by
    unfold login
    rw [ShouldBindJSON_ok req' hu' hp']
    simp only [hf']
    rfl
  refine ⟨h1, ?_, h1.trans h2.symm⟩
  rw [h1]
  simp [JSON.get?, lookupKey]

/-- The unknown user wronguser/wrongpass and the known user with a wrong password,
betauser/wrongpass, under two different signers at two instants. -/
theorem login_invalid_credentials_witness :
    findUser "wronguser" "wrongpass" = none ∧ findUser "betauser" "wrongpass" = none ∧
    login (fun _ _ => Except.ok "signed") 0
        (some { Username := "wronguser", Password := "wrongpass" })
      = ⟨401, JSON.obj [("error", JSON.str "Invalid credentials")]⟩ ∧
    login (fun _ _ => Except.ok "signed") 0
        (some { Username := "wronguser", Password := "wrongpass" })
      = login (fun _ _ => Except.error "fault") 86400000000000
          (some { Username := "betauser", Password := "wrongpass" }) :=
  ⟨by decide, by decide,
   (login_invalid_credentials (fun _ _ => Except.ok "signed")
      (fun _ _ => Except.error "fault") 0 86400000000000
      { Username := "wronguser", Password := "wrongpass" }
      { Username := "betauser", Password := "wrongpass" }
      (by decide) (by decide) (by decide) (by decide) (by decide) (by decide)).1,
   (login_invalid_credentials (fun _ _ => Except.ok "signed")
      (fun _ _ => Except.error "fault") 0 86400000000000
      { Username := "wronguser", Password := "wrongpass" }
      { Username := "betauser", Password := "wrongpass" }
      (by decide) (by decide) (by decide) (by decide) (by decide) (by decide)).2.2⟩

theorem login_bind_failure (SignedString : Signer) (now : Time)
    (decoded : Option LoginRequest)
    (h : decoded = none ∨
      ∃ req, decoded = some req ∧ (req.Username = "" ∨ req.Password = "")) :
    login SignedString now decoded
      = ⟨400, JSON.obj [("error", JSON.str "Invalid request")]⟩ ∧
    (login SignedString now decoded).status ≠ 401 ∧
    (login SignedString now decoded).status ≠ 200 ∧
    (login SignedString now decoded).body.get? "token" = none := by
  have hb : ∃ e, ShouldBindJSON decoded = Except.error e := by
    cases hd : ShouldBindJSON decoded with
    | error e => exact ⟨e, rfl⟩
    | ok r =>
      obtain ⟨hdec, hu, hp⟩ := (ShouldBindJSON_ok_iff decoded r).1 hd
      rcases h with h | ⟨req, hreq, hempty⟩
      · rw [h] at hdec
        cases hdec
      · rw [hreq] at hdec
        cases hdec
        rcases hempty with he | he
        · exact absurd he hu
        · exact absurd he hp
  obtain ⟨e, he⟩ := hb
  have h1 : login SignedString now decoded
      = ⟨400, JSON.obj [("error", JSON.str "Invalid request")]⟩ := by
    unfold login
    rw [he]
    rfl
  rw [h1]
  refine ⟨rfl, by decide, by decide, ?_⟩
  simp [JSON.get?, lookupKey]

theorem decodeMembers_username (members : List (String × JSON)) (acc req : LoginRequest)
    (hd : decodeMembers members acc = some req)
    (hk : ∀ m ∈ members, keyIs m.1 "username" = false) :
    req.Username = acc.Username := by
  induction members generalizing acc with
  | nil =>
    simp only [decodeMembers, Option.some.injEq] at hd
    rw [hd]
  | cons m rest ih =>
    obtain ⟨key, v⟩ := m
    have hkey : keyIs key "username" = false := hk (key, v) (List.mem_cons_self _ _)
    have hrest : ∀ m ∈ rest, keyIs m.1 "username" = false :=
      fun m hm => hk m (List.mem_cons_of_mem _ hm)
    unfold decodeMembers at hd
    simp only [hkey, Bool.false_eq_true, if_false] at hd
    by_cases hp : keyIs key "password" = true
    · simp only [hp, if_true] at hd
      cases v with
      | str s => exact ih { acc with Password := s } hd hrest
      | null => exact ih acc hd hrest
      | bool b => cases hd
      | num n => cases hd
      | arr items => cases hd
      | obj ms => cases hd
    · simp only [hp, if_false] at hd
      exact ih _ hd hrest

theorem decodeMembers_password (members : List (String × JSON)) (acc req : LoginRequest)
    (hd : decodeMembers members acc = some req)
    (hk : ∀ m ∈ members, keyIs m.1 "password" = false) :
    req.Password = acc.Password := by
  induction members generalizing acc with
  | nil =>
    simp only [decodeMembers, Option.some.injEq] at hd
    rw [hd]
  | cons m rest ih =>
    obtain ⟨key, v⟩ := m
    have hkey : keyIs key "password" = false := hk (key, v) (List.mem_cons_self _ _)
    have hrest : ∀ m ∈ rest, keyIs m.1 "password" = false :=
      fun m hm => hk m (List.mem_cons_of_mem _ hm)
    unfold decodeMembers at hd
    by_cases hu : keyIs key "username" = true
    · simp only [hu, if_true] at hd
      cases v with
      | str s => exact ih { acc with Username := s } hd hrest
      | null => exact ih acc hd hrest
      | bool b => cases hd
      | num n => cases hd
      | arr items => cases hd
      | obj ms => cases hd
    · simp only [hu, hkey, Bool.false_eq_true, if_false] at hd
      exact ih _ hd hrest

/-- A body that is one well-formed object followed by text that is no JSON is
malformed, yet `login` answers it 200 with a token, so a malformed body is not
always answered 400. An object whose member names are written in another case
is answered 200 as well. -/
theorem loginBody_malformed_accepted :
    Body.malformed
        { value := some (JSON.obj [ ("username", JSON.str "betauser"),
                                    ("password", JSON.str "betauser") ]),
          trailing := " this is not json" } = true ∧
    loginBody (fun _ _ => Except.ok "signed") 0
        { value := some (JSON.obj [ ("username", JSON.str "betauser"),
                                    ("password", JSON.str "betauser") ]),
          trailing := " this is not json" }
      = ⟨200, JSON.obj
          [ ("token", JSON.str "signed"),
            ("user", JSON.obj [ ("username", JSON.str "betauser"),
                                ("company", JSON.str "acme global"),
                                ("beta_access", JSON.bool true) ]) ]⟩ ∧
    (loginBody (fun _ _ => Except.ok "signed") 0
        { value := some (JSON.obj [ ("username", JSON.str "betauser"),
                                    ("password", JSON.str "betauser") ]),
          trailing := " this is not json" }).status ≠ 400 ∧
    (loginBody (fun _ _ => Except.ok "signed") 0
        { value := some (JSON.obj [ ("USERNAME", JSON.str "betauser"),
                                    ("Password", JSON.str "betauser") ]),
          trailing := "" }).status = 200 := by
  refine ⟨by decide, ?_, ?_, ?_⟩
  · rfl
  · decide
  · decide

/-- C5 (amended): a body from which the decoder reads no request (it does not
begin with a JSON value, or that value is neither an object nor `null`, or a
username or password member is neither a string nor `null`), an object with no
member named username or none named password, and a body whose decoded username
or password is empty, are each answered 400 with the body
`error: Invalid request`; the check precedes matching, so the status is neither
401 nor 200 whatever the username, and the body holds no token. The text after
the leading value plays no part in the answer. -/
theorem loginBody_invalid_request (SignedString : Signer) (now : Time) (body : Body)
    (h : body.value = none ∨
      (∃ v, body.value = some v ∧ decodeLoginRequest v = none) ∨
      (∃ members, body.value = some (JSON.obj members) ∧
        ((∀ m ∈ members, keyIs m.1 "username" = false) ∨
         (∀ m ∈ members, keyIs m.1 "password" = false))) ∨
      (∃ v req, body.value = some v ∧ decodeLoginRequest v = some req ∧
        (req.Username = "" ∨ req.Password = ""))) :
    loginBody SignedString now body
      = ⟨400, JSON.obj [("error", JSON.str "Invalid request")]⟩ ∧
    (loginBody SignedString now body).status ≠ 401 ∧
    (loginBody SignedString now body).status ≠ 200 ∧
    (loginBody SignedString now body).body.get? "token" = none ∧
    (∀ text : String,
      loginBody SignedString now { value := body.value, trailing := text }
        = loginBody SignedString now body) := by
  have hdec : decodeJSON body = none ∨
      ∃ req, decodeJSON body = some req ∧ (req.Username = "" ∨ req.Password = "") := by
    rcases h with h | ⟨v, hv, hnone⟩ | ⟨members, hv, hmiss⟩ | ⟨v, req, hv, hreq, hempty⟩
    · left
      simp [decodeJSON, h]
    · left
      simp [decodeJSON, hv, hnone]
    · cases hd : decodeMembers members { Username := "", Password := "" } with
      | none =>
        left
        simp [decodeJSON, hv, decodeLoginRequest, hd]
      | some req =>
        right
        refine ⟨req, by simp [decodeJSON, hv, decodeLoginRequest, hd], ?_⟩
        rcases hmiss with hk | hk
        · exact Or.inl (decodeMembers_username members _ req hd hk)
        · exact Or.inr (decodeMembers_password members _ req hd hk)
    · right
      exact ⟨req, by simp [decodeJSON, hv, hreq], hempty⟩
  obtain ⟨h1, h2, h3, h4⟩ := login_bind_failure SignedString now (decodeJSON body) hdec
  exact ⟨h1, h2, h3, h4, fun _ => rfl⟩

/-- The body of the test, username betauser with an empty password, and the body
holding the username member only. -/
theorem loginBody_invalid_request_witness :
    loginBody (fun _ _ => Except.ok "signed") 0
        { value := some (JSON.obj [ ("username", JSON.str "betauser"),
                                    ("password", JSON.str "") ]),
          trailing := "" }
      = ⟨400, JSON.obj [("error", JSON.str "Invalid request")]⟩ ∧
    loginBody (fun _ _ => Except.ok "signed") 0
        { value := some (JSON.obj [("username", JSON.str "betauser")]),
          trailing := "" }
      = ⟨400, JSON.obj [("error", JSON.str "Invalid request")]⟩ :=
  ⟨(loginBody_invalid_request (fun _ _ => Except.ok "signed") 0
      { value := some (JSON.obj [ ("username", JSON.str "betauser"),
                                  ("password", JSON.str "") ]),
        trailing := "" }
      (Or.inr (Or.inr (Or.inr
        ⟨_, { Username := "betauser", Password := "" }, rfl, by decide, Or.inr rfl⟩)))).1,
   (loginBody_invalid_request (fun _ _ => Except.ok "signed") 0
      { value := some (JSON.obj [("username", JSON.str "betauser")]),
        trailing := "" }
      (Or.inr (Or.inr (Or.inl
        ⟨[("username", JSON.str "betauser")], rfl, Or.inr (by decide)⟩)))).1⟩

/-- C7: a well-formed request matching a record, with the signer returning an
error, is answered 500 with the body `error: Could not generate token`, which
holds neither a token nor a user; and a 500 from `login`, for any signer, instant
and body, comes from a well-formed matching request whose signing returned an
error. -/
theorem login_signing_failure (SignedString : Signer) (now : Time) (req : LoginRequest)
    (u : User) (e : String)
    (hu : req.Username ≠ "") (hp : req.Password ≠ "")
    (hf : findUser req.Username req.Password = some u)
    (hs : SignedString (loginToken u now) jwtSecret = Except.error e) :
    login SignedString now (some req)
      = ⟨500, JSON.obj [("error", JSON.str "Could not generate token")]⟩ ∧
    (login SignedString now (some req)).body.get? "token" = none ∧
    (login SignedString now (some req)).body.get? "user" = none ∧
    (∀ (S : Signer) (t : Time) (decoded : Option LoginRequest),
      (login S t decoded).status = 500 →
        ∃ r v err, decoded = some r ∧ r.Username ≠ "" ∧ r.Password ≠ "" ∧
          findUser r.Username r.Password = some v ∧
          S (loginToken v t) jwtSecret = Except.error err) := by
  have hl := login_matched SignedString now req u hu hp hf
  rw [hs] at hl
  simp only at hl
  rw [hl]
  refine ⟨rfl, ?_, ?_, login_status_cases⟩
  · simp [errorBody, JSON.get?, lookupKey]
  · simp [errorBody, JSON.get?, lookupKey]

/-- The login of betauser under a signer that always fails. -/
theorem login_signing_failure_witness :
    findUser "betauser" "betauser"
      = some { Username := "betauser", Password := "betauser",
               Company := "acme global", BetaAccess := true } ∧
    login (fun _ _ => Except.error "encoding fault") 0
        (some { Username := "betauser", Password := "betauser" })
      = ⟨500, JSON.obj [("error", JSON.str "Could not generate token")]⟩ :=
  ⟨by decide,
   (login_signing_failure (fun _ _ => Except.error "encoding fault") 0
      { Username := "betauser", Password := "betauser" }
      { Username := "betauser", Password := "betauser",
        Company := "acme global", BetaAccess := true }
      "encoding fault" (by decide) (by decide) (by decide) rfl).1⟩

/-- A login with the same non-empty string as username and password, matched by
a record of that username: the shape of every entry of the fixed listing. -/
theorem login_listed (SignedString : Signer) (now : Time) (name : String) (v : User)
    (hne : name ≠ "") (hfind : findUser name name = some v) (hname : v.Username = name) :
    stringField
        (JSON.obj [("username", JSON.str name), ("password", JSON.str name)]) "username"
      ≠ "" ∧
    stringField
        (JSON.obj [("username", JSON.str name), ("password", JSON.str name)]) "password"
      ≠ "" ∧
    ShouldBindJSON
        (some { Username := stringField
                  (JSON.obj [("username", JSON.str name), ("password", JSON.str name)])
                  "username",
                Password := stringField
                  (JSON.obj [("username", JSON.str name), ("password", JSON.str name)])
                  "password" })
      = Except.ok
          { Username := stringField
              (JSON.obj [("username", JSON.str name), ("password", JSON.str name)])
              "username",
            Password := stringField
              (JSON.obj [("username", JSON.str name), ("password", JSON.str name)])
              "password" } ∧
    (∃ u, findUser
          (stringField
            (JSON.obj [("username", JSON.str name), ("password", JSON.str name)]) "username")
          (stringField
            (JSON.obj [("username", JSON.str name), ("password", JSON.str name)]) "password")
        = some u ∧
      u.Username = stringField
        (JSON.obj [("username", JSON.str name), ("password", JSON.str name)]) "username" ∧
      ∀ tokenString, SignedString (loginToken u now) jwtSecret = Except.ok tokenString →
        (login SignedString now
            (some { Username := stringField
                      (JSON.obj [("username", JSON.str name), ("password", JSON.str name)])
                      "username",
                    Password := stringField
                      (JSON.obj [("username", JSON.str name), ("password", JSON.str name)])
                      "password" })).status = 200 ∧
        ∃ userObj,
          (login SignedString now
              (some { Username := stringField
                        (JSON.obj [("username", JSON.str name), ("password", JSON.str name)])
                        "username",
                      Password := stringField
                        (JSON.obj [("username", JSON.str name), ("password", JSON.str name)])
                        "password" })).body.get? "user"
            = some userObj ∧
          stringField userObj "username" = stringField
            (JSON.obj [("username", JSON.str name), ("password", JSON.str name)])
            "username") ∧
    (login SignedString now
        (some { Username := stringField
                  (JSON.obj [("username", JSON.str name), ("password", JSON.str name)])
                  "username",
                Password := stringField
                  (JSON.obj [("username", JSON.str name), ("password", JSON.str name)])
                  "password" })).status ≠ 400 ∧
    (login SignedString now
        (some { Username := stringField
                  (JSON.obj [("username", JSON.str name), ("password", JSON.str name)])
                  "username",
                Password := stringField
                  (JSON.obj [("username", JSON.str name), ("password", JSON.str name)])
                  "password" })).status ≠ 401 := by
  have h1 : stringField
      (JSON.obj [("username", JSON.str name), ("password", JSON.str name)]) "username"
      = name := by
    simp [stringField, JSON.get?, lookupKey]
  have h2 : stringField
      (JSON.obj [("username", JSON.str name), ("password", JSON.str name)]) "password"
      = name := by
    simp [stringField, JSON.get?, lookupKey]
  rw [h1, h2]
  have hm := login_matched SignedString now { Username := name, Password := name } v
    hne hne hfind
  refine ⟨hne, hne, ShouldBindJSON_ok _ hne hne, ⟨v, hfind, hname, ?_⟩, ?_, ?_⟩
  · intro tokenString hs
    rw [hm, hs]
    refine ⟨rfl, User.toJSON v, ?_, ?_⟩
    · simp [LoginResponse.toJSON, JSON.get?, lookupKey]
    · simp [User.toJSON, stringField, JSON.get?, lookupKey, hname]
  · rw [hm]
    cases SignedString (loginToken v now) jwtSecret <;>
      simp [StatusInternalServerError, StatusOK]
  · rw [hm]
    cases SignedString (loginToken v now) jwtSecret <;>
      simp [StatusInternalServerError, StatusOK]

/-- C10: for every entry of the body `listUsers` writes for the fixed store, the
login request carrying the entry's username and password passes the required
check (both are non-empty), is matched by `findUser`, is never answered 400 or
401, and when signing succeeds is answered 200 with a user whose username is the
listed one. -/
theorem list_then_login (SignedString : Signer) (now : Time) (entry : JSON)
    (hentry : entry ∈ listUsers.body.elems) :
    stringField entry "username" ≠ "" ∧
    stringField entry "password" ≠ "" ∧
    ShouldBindJSON (some { Username := stringField entry "username",
                           Password := stringField entry "password" })
      = Except.ok { Username := stringField entry "username",
                    Password := stringField entry "password" } ∧
    (∃ u, findUser (stringField entry "username") (stringField entry "password") = some u ∧
      u.Username = stringField entry "username" ∧
      ∀ tokenString, SignedString (loginToken u now) jwtSecret = Except.ok tokenString →
        (login SignedString now
            (some { Username := stringField entry "username",
                    Password := stringField entry "password" })).status = 200 ∧
        ∃ userObj,
          (login SignedString now
              (some { Username := stringField entry "username",
                      Password := stringField entry "password" })).body.get? "user"
            = some userObj ∧
          stringField userObj "username" = stringField entry "username") ∧
    (login SignedString now
        (some { Username := stringField entry "username",
                Password := stringField entry "password" })).status ≠ 400 ∧
    (login SignedString now
        (some { Username := stringField entry "username",
                Password := stringField entry "password" })).status ≠ 401 := by
  rw [listUsers_body_eq] at hentry
  simp only [JSON.elems, List.mem_cons, List.mem_singleton, List.not_mem_nil, or_false]
    at hentry
  rcases hentry with he | he
  · subst he
    exact login_listed SignedString now "betauser"
      { Username := "betauser", Password := "betauser",
        Company := "acme global", BetaAccess := true }
      (by decide) (by decide) rfl
  · subst he
    exact login_listed SignedString now "normaluser"
      { Username := "normaluser", Password := "normaluser",
        Company := "generic co", BetaAccess := false }
      (by decide) (by decide) rfl

/-- The first entry of the listing, under a signer that always succeeds. -/
theorem list_then_login_witness :
    JSON.obj [("username", JSON.str "betauser"), ("password", JSON.str "betauser")]
      ∈ listUsers.body.elems ∧
    (login (fun _ _ => Except.ok "signed") 0
        (some { Username := "betauser", Password := "betauser" })).status ≠ 401 :=
  ⟨List.Mem.head _,
   (list_then_login (fun _ _ => Except.ok "signed") 0
      (JSON.obj [("username", JSON.str "betauser"), ("password", JSON.str "betauser")])
      (List.Mem.head _)).2.2.2.2.2⟩

end HackersAuth
